import Mathlib

/-!
Verification development for the go-rss-scraper ingestion core
(`src/main.go`).  Go strings are arbitrary byte sequences, so they are
embedded as lists of bytes (`List (Fin 256)`); `[]byte(s)` in Go is the
identity on that representation.  Stateful sink calls (postgres via
`db.Exec`/`db.Query`, elasticsearch via the client) are embedded as
oracles (`Sinks`) giving each call's outcome, and each push function
additionally returns the trace of sink calls it performed.  `log.Fatal`
(process exit) and a nil-pointer dereference (Go runtime panic) are
modelled as distinguished outcomes.
-/

namespace Scraper

/-- A Go byte. -/
abbrev Byte := Fin 256

/-- A Go string: an immutable byte sequence. -/
abbrev GoStr := List Byte

/-! ## Sanitizer

`strings.ReplaceAll(s, "'", "\x60")` (main.go, used at lines 127-137,
216-226): the pattern and the replacement are the single bytes 0x27 and
0x60, so the replacement is a pointwise byte map. -/

/-- The single-quote byte 0x27, the pattern of every `ReplaceAll` call. -/
def quoteByte : Byte := 39

/-- The backtick byte 0x60, the replacement of every `ReplaceAll` call. -/
def backtickByte : Byte := 96

/-- `strings.ReplaceAll(s, "'", "\x60")` for a one-byte pattern. -/
def sanitize (s : GoStr) : GoStr :=
  s.map fun b => if b = quoteByte then backtickByte else b

/-! ## Identity derivation

`base64.URLEncoding.EncodeToString([]byte(x))` (main.go lines 125, 219):
RFC 4648 base64url with `=` padding, emitted as ASCII bytes. -/

/-- The base64url alphabet, as the ASCII byte for index `n` (0-63). -/
def b64DigitNat (n : Nat) : Nat :=
  if n < 26 then 65 + n
  else if n < 52 then 97 + (n - 26)
  else if n < 62 then 48 + (n - 52)
  else if n = 62 then 45
  else 95

theorem b64DigitNat_lt (n : Nat) : b64DigitNat n < 256 := by
  unfold b64DigitNat
  repeat' split
  all_goals omega

/-- The base64url alphabet byte for index `n`. -/
def b64Digit (n : Nat) : Byte := ⟨b64DigitNat n, b64DigitNat_lt n⟩

/-- The padding byte, ASCII `=` (0x3d). -/
def padByte : Byte := 61

/-- `base64.URLEncoding.EncodeToString`: encode three input bytes into
four alphabet bytes; a final one-byte group yields two digits and two
pads, a final two-byte group three digits and one pad. -/
def b64Encode : GoStr → GoStr
  | [] => []
  | [b1] =>
      [b64Digit (b1.val / 4), b64Digit (b1.val % 4 * 16), padByte, padByte]
  | [b1, b2] =>
      [b64Digit (b1.val / 4), b64Digit (b1.val % 4 * 16 + b2.val / 16),
       b64Digit (b2.val % 16 * 4), padByte]
  | b1 :: b2 :: b3 :: rest =>
      b64Digit (b1.val / 4) :: b64Digit (b1.val % 4 * 16 + b2.val / 16) ::
      b64Digit (b2.val % 16 * 4 + b3.val / 64) :: b64Digit (b3.val % 64) ::
      b64Encode rest

/-- `id(x)` of the spec: the identity derivation used for both Site and
Article ids (main.go lines 125 and 219). -/
def deterministic (s : GoStr) : GoStr := b64Encode s

/-- Inverse of `b64Digit`, total on bytes (garbage on non-alphabet bytes). -/
def b64DigitVal (b : Byte) : Nat :=
  if 65 ≤ b.val ∧ b.val ≤ 90 then b.val - 65
  else if 97 ≤ b.val ∧ b.val ≤ 122 then b.val - 97 + 26
  else if 48 ≤ b.val ∧ b.val ≤ 57 then b.val - 48 + 52
  else if b.val = 45 then 62
  else 63

/-- Decoder witnessing that `b64Encode` loses no information. -/
def b64Decode : GoStr → List Nat
  | c1 :: c2 :: c3 :: c4 :: rest =>
      if c3 = padByte then
        [b64DigitVal c1 * 4 + b64DigitVal c2 / 16]
      else if c4 = padByte then
        [b64DigitVal c1 * 4 + b64DigitVal c2 / 16,
         b64DigitVal c2 % 16 * 16 + b64DigitVal c3 / 4]
      else
        (b64DigitVal c1 * 4 + b64DigitVal c2 / 16) ::
        (b64DigitVal c2 % 16 * 16 + b64DigitVal c3 / 4) ::
        (b64DigitVal c3 % 4 * 64 + b64DigitVal c4) :: b64Decode rest
  | _ => []

theorem b64DigitVal_b64Digit_fin : ∀ m : Fin 64, b64DigitVal (b64Digit m.val) = m.val := by
  decide

theorem b64DigitVal_b64Digit (n : Nat) (h : n < 64) : b64DigitVal (b64Digit n) = n :=
  b64DigitVal_b64Digit_fin ⟨n, h⟩

theorem b64Digit_ne_pad_fin : ∀ m : Fin 64, b64Digit m.val ≠ padByte := by
  decide

theorem b64Digit_ne_pad (n : Nat) (h : n < 64) : b64Digit n ≠ padByte :=
  b64Digit_ne_pad_fin ⟨n, h⟩

/-- Case analysis matching the shape of `b64Encode`'s recursion. -/
def rec3 {motive : GoStr → Prop} (h0 : motive []) (h1 : ∀ b, motive [b])
    (h2 : ∀ b c, motive [b, c])
    (h3 : ∀ b c d rest, motive rest → motive (b :: c :: d :: rest)) :
    ∀ s, motive s
  | [] => h0
  | [b] => h1 b
  | [b, c] => h2 b c
  | b :: c :: d :: rest => h3 b c d rest (rec3 h0 h1 h2 h3 rest)

theorem b64_roundtrip : ∀ s : GoStr, b64Decode (b64Encode s) = s.map Fin.val := by
  refine rec3 rfl ?_ ?_ ?_
  · intro b
    have hb := b.isLt
    show b64Decode [b64Digit (b.val / 4), b64Digit (b.val % 4 * 16), padByte, padByte]
      = [b.val]
    rw [b64Decode, if_pos rfl, b64DigitVal_b64Digit _ (by omega),
      b64DigitVal_b64Digit _ (by omega)]
    have : b.val / 4 * 4 + b.val % 4 * 16 / 16 = b.val := by omega
    rw [this]
  · intro b c
    have hb := b.isLt
    have hc := c.isLt
    show b64Decode [b64Digit (b.val / 4), b64Digit (b.val % 4 * 16 + c.val / 16),
        b64Digit (c.val % 16 * 4), padByte] = [b.val, c.val]
    rw [b64Decode, if_neg (b64Digit_ne_pad _ (by omega)), if_pos rfl,
      b64DigitVal_b64Digit _ (by omega), b64DigitVal_b64Digit _ (by omega),
      b64DigitVal_b64Digit _ (by omega)]
    have h1 : b.val / 4 * 4 + (b.val % 4 * 16 + c.val / 16) / 16 = b.val := by omega
    have h2 : (b.val % 4 * 16 + c.val / 16) % 16 * 16 + c.val % 16 * 4 / 4 = c.val := by
      omega
    rw [h1, h2]
  · intro b c d rest ih
    have hb := b.isLt
    have hc := c.isLt
    have hd := d.isLt
    show b64Decode (b64Digit (b.val / 4) :: b64Digit (b.val % 4 * 16 + c.val / 16) ::
        b64Digit (c.val % 16 * 4 + d.val / 64) :: b64Digit (d.val % 64) ::
        b64Encode rest) = b.val :: c.val :: d.val :: rest.map Fin.val
    rw [b64Decode, if_neg (b64Digit_ne_pad _ (by omega)),
      if_neg (b64Digit_ne_pad _ (by omega)),
      b64DigitVal_b64Digit _ (by omega), b64DigitVal_b64Digit _ (by omega),
      b64DigitVal_b64Digit _ (by omega), b64DigitVal_b64Digit _ (by omega)]
    have h1 : b.val / 4 * 4 + (b.val % 4 * 16 + c.val / 16) / 16 = b.val := by omega
    have h2 : (b.val % 4 * 16 + c.val / 16) % 16 * 16
        + (c.val % 16 * 4 + d.val / 64) / 4 = c.val := by omega
    have h3 : (c.val % 16 * 4 + d.val / 64) % 4 * 64 + d.val % 64 = d.val := by omega
    rw [h1, h2, h3, ih]

theorem deterministic_injective : Function.Injective deterministic := by
  intro x y h
  have hx := b64_roundtrip x
  have hy := b64_roundtrip y
  rw [show b64Encode x = b64Encode y from h, hy] at hx
  exact (List.map_injective_iff.mpr Fin.val_injective hx).symm

/-! ## Feed data model

`type Rss struct` (main.go lines 28-41). -/

/-- One `<item>` of a parsed feed. -/
structure RssItem where
  title : GoStr
  link : GoStr
  description : GoStr
  pubDate : GoStr
deriving DecidableEq

/-- The `<channel>` of a parsed feed. -/
structure RssChannelData where
  title : GoStr
  link : GoStr
  description : GoStr
  items : List RssItem
deriving DecidableEq

/-- A parsed feed document. -/
structure Rss where
  channel : RssChannelData
deriving DecidableEq

/-! ## Sink model

The elasticsearch client returns `(*esapi.Response, error)` per call; on
a transport-level failure the response pointer is nil, otherwise the
error is nil and the response carries a status code and a body.
`res.IsError()` is `res.StatusCode > 299`.  `db.Exec` returns an error
or nil.  A `Sinks` value fixes, per entity id, the outcome of each kind
of sink call made during one run. -/

/-- An elasticsearch response: status code, whether `io.ReadAll` on the
body succeeds, and the body bytes. -/
structure ESResp where
  statusCode : Nat
  bodyOk : Bool
  body : GoStr
deriving DecidableEq

/-- `esapi.Response.IsError()`: `StatusCode > 299`. -/
def ESResp.isError (r : ESResp) : Bool := 299 < r.statusCode

/-- Outcome of one elasticsearch client call: a transport-level error
(nil response) or a response. -/
inductive ESCall where
  | transportErr : GoStr → ESCall
  | resp : ESResp → ESCall
deriving DecidableEq

/-- Per-id outcomes of every sink call a run can make. -/
structure Sinks where
  dbSite : GoStr → Option GoStr
  esSiteUpdate : GoStr → ESCall
  esSiteCreate : GoStr → ESCall
  dbArticle : GoStr → Option GoStr
  esArticleUpdate : GoStr → ESCall
  esArticleCreate : GoStr → ESCall
  dbDelete : GoStr → Option GoStr
  esDelete : GoStr → ESCall

/-- The body of `ESPayload` / `ESUpdatePayload.Doc` (main.go lines
43-53): the only fields ever sent to the index. -/
structure ESPayload where
  title : GoStr
  description : GoStr
deriving DecidableEq

/-- A sink call made during a run, with the data it carried. -/
inductive Event where
  | dbSite : GoStr → GoStr → GoStr → GoStr → GoStr → Event
  | esSiteUpdate : GoStr → ESPayload → Event
  | esSiteCreate : GoStr → ESPayload → Event
  | dbArticle : GoStr → GoStr → GoStr → GoStr → GoStr → GoStr → Event
  | esArticleUpdate : GoStr → ESPayload → Event
  | esArticleCreate : GoStr → ESPayload → Event
  | dbDeleteArticle : GoStr → Event
  | esDeleteArticle : GoStr → Event
deriving DecidableEq

/-- Errors a push function can return (`error` values in Go). -/
inductive Err where
  | emptyChannel : Err
  | db : GoStr → Err
  | es : Nat → GoStr → Err
deriving DecidableEq

/-- Result of running a Go function that can crash the goroutine:
either it returns a value or the runtime panics (nil dereference). -/
inductive GoResult (α : Type) where
  | ret : α → GoResult α
  | panicked : GoResult α
deriving DecidableEq

/-! ## Index writers

`pushArticleToES` (main.go lines 171-209) and `pushSiteToES` (lines
262-300).  Both marshal `{doc: {title, description}}` (marshalling a
struct of strings cannot fail), call `Update`, register
`defer res.Body.Close()` BEFORE checking the call's error — so a nil
response (transport failure) panics at the defer statement — and then
inspect `res.IsError()`.  Only a 404 triggers the fallback `Create`;
any other error response falls through to `return err` with `err = nil`.
In the fallback, a nil `Create` response panics at `res.IsError()`; an
error response whose body reads successfully is returned as
`fmt.Errorf("ES error: ...")`; one whose body read fails falls through
to `return err` with `err = nil` (the `Create` call's nil error). -/

def pushArticleToES (s : Sinks) (articleId title description : GoStr) :
    GoResult (Option Err) × List Event :=
  let payload : ESPayload := ⟨title, description⟩
  let updEv := Event.esArticleUpdate articleId payload
  match s.esArticleUpdate articleId with
  | .transportErr _ => (.panicked, [updEv])
  | .resp r =>
    if r.isError then
      if r.statusCode = 404 then
        let creEv := Event.esArticleCreate articleId payload
        match s.esArticleCreate articleId with
        | .transportErr _ => (.panicked, [updEv, creEv])
        | .resp cr =>
          if cr.isError then
            if cr.bodyOk then
              (.ret (some (.es cr.statusCode cr.body)), [updEv, creEv])
            else (.ret none, [updEv, creEv])
          else (.ret none, [updEv, creEv])
      else (.ret none, [updEv])
    else (.ret none, [updEv])

def pushSiteToES (s : Sinks) (siteId title description : GoStr) :
    GoResult (Option Err) × List Event :=
  let payload : ESPayload := ⟨title, description⟩
  let updEv := Event.esSiteUpdate siteId payload
  match s.esSiteUpdate siteId with
  | .transportErr _ => (.panicked, [updEv])
  | .resp r =>
    if r.isError then
      if r.statusCode = 404 then
        let creEv := Event.esSiteCreate siteId payload
        match s.esSiteCreate siteId with
        | .transportErr _ => (.panicked, [updEv, creEv])
        | .resp cr =>
          if cr.isError then
            if cr.bodyOk then
              (.ret (some (.es cr.statusCode cr.body)), [updEv, creEv])
            else (.ret none, [updEv, creEv])
          else (.ret none, [updEv, creEv])
      else (.ret none, [updEv])
    else (.ret none, [updEv])

/-! ## Store writers and feed processing

`pushArticleToDB` / `pushSiteToDB` are single parameterized `db.Exec`
calls; their observable effect is the row they send and the error the
oracle answers, so they appear below as the `Event.dbArticle` /
`Event.dbSite` emissions plus the `Sinks.dbArticle` / `Sinks.dbSite`
outcome. -/

/-- `pushArticles` (main.go lines 118-152): per item in order, break on
any empty required field, else sanitize, store-write, index-write;
a store or index error returns (ending the whole loop). -/
def pushArticles (s : Sinks) (siteId : GoStr) :
    List RssItem → GoResult Unit × List Event
  | [] => (.ret (), [])
  | a :: rest =>
    if a.title = [] ∨ a.link = [] ∨ a.description = [] then (.ret (), [])
    else
      let articleId := deterministic a.link
      let title := sanitize a.title
      let description := sanitize a.description
      let ev := Event.dbArticle articleId title (sanitize a.link) description
        (sanitize a.pubDate) siteId
      match s.dbArticle articleId with
      | some _ => (.ret (), [ev])
      | none =>
        let es := pushArticleToES s articleId title description
        match es.1 with
        | .panicked => (.panicked, ev :: es.2)
        | .ret (some _) => (.ret (), ev :: es.2)
        | .ret none =>
          let t := pushArticles s siteId rest
          (t.1, ev :: es.2 ++ t.2)

/-- `pushSite` (main.go lines 211-242): validate the channel, derive the
site id from the feed url, store-write the row (the url field raw, the
others sanitized), then index-write. -/
def pushSite (s : Sinks) (feedUrl : GoStr) (data : Rss) :
    GoResult (GoStr × Option Err) × List Event :=
  if data.channel.title = [] ∨ data.channel.link = [] then
    (.ret ([], some .emptyChannel), [])
  else
    let title := sanitize data.channel.title
    let description := sanitize data.channel.description
    let siteId := deterministic feedUrl
    let ev := Event.dbSite siteId feedUrl title (sanitize data.channel.link) description
    match s.dbSite siteId with
    | some e => (.ret (feedUrl, some (.db e)), [ev])
    | none =>
      let es := pushSiteToES s siteId title description
      match es.1 with
      | .panicked => (.panicked, ev :: es.2)
      | .ret r => (.ret (siteId, r), ev :: es.2)

/-- The body of one feed's goroutine in `scrapingCycle` (main.go lines
354-367), after the fetch: push the site; on a returned error, log and
stop; otherwise push the articles with the returned site id. -/
def feedTask (s : Sinks) (url : GoStr) (data : Rss) : GoResult Unit × List Event :=
  let ps := pushSite s url data
  match ps.1 with
  | .panicked => (.panicked, ps.2)
  | .ret (_, some _) => (.ret (), ps.2)
  | .ret (siteId, none) =>
    let t := pushArticles s siteId data.channel.items
    (t.1, ps.2 ++ t.2)

/-! ## Relational store semantics

Semantics of the two upsert statements.  `pushSiteToDB` (main.go lines
244-260) runs `INSERT INTO Sites VALUES (id, url, title, link,
description) ON CONFLICT (id) DO UPDATE SET title = EXCLUDED.title,
description = EXCLUDED.description`; `pushArticleToDB` (lines 154-169)
the analogue on `Articles(id, title, link, description, pubdate,
site_id)`.  A table is a list of rows with `id` the primary key. -/

structure SiteRow where
  id : GoStr
  url : GoStr
  title : GoStr
  link : GoStr
  description : GoStr
deriving DecidableEq

structure ArticleRow where
  id : GoStr
  title : GoStr
  link : GoStr
  description : GoStr
  pubdate : GoStr
  siteId : GoStr
deriving DecidableEq

/-- The `Sites` upsert: insert, or on id conflict update only title and
description. -/
def upsertSiteRow (tbl : List SiteRow) (r : SiteRow) : List SiteRow :=
  if tbl.any (fun x => x.id = r.id) then
    tbl.map fun x =>
      if x.id = r.id then { x with title := r.title, description := r.description }
      else x
  else tbl ++ [r]

/-- The `Articles` upsert: insert, or on id conflict update only title
and description. -/
def upsertArticleRow (tbl : List ArticleRow) (r : ArticleRow) : List ArticleRow :=
  if tbl.any (fun x => x.id = r.id) then
    tbl.map fun x =>
      if x.id = r.id then { x with title := r.title, description := r.description }
      else x
  else tbl ++ [r]

/-! ## Reaper

`cleanOutdated` (main.go lines 302-345).  Times are Go `time.Time`
instants, embedded as nanosecond counts (`Int`); `time.Time.Sub` returns
a `time.Duration` saturated at the int64 bounds.  The query and the row
scans are taken as succeeded (their failures, both `log.Fatal`, are not
at issue in any claim); `now` is read per comparison in Go but the model
takes one instant, as no claim concerns the clock advancing mid-sweep. -/

/-- `articleThreshold = time.Hour * 24 * 3` in nanoseconds (main.go line 25). -/
def articleThreshold : Int := 259200000000000

/-- `time.Time.Sub`: difference in nanoseconds, saturated at the
`time.Duration` (int64) bounds. -/
def goSub (a b : Int) : Int :=
  max (-(2 ^ 63)) (min (2 ^ 63 - 1) (a - b))

/-- The reaper's eviction test: `time.Now().Sub(pubDate) > articleThreshold`
(main.go line 319), a strict comparison. -/
def outdated (now pubDate : Int) : Bool :=
  decide (articleThreshold < goSub now pubDate)

/-- One row of `SELECT id, pubdate from Articles`, the `pubDate.Time`
value as an instant. -/
structure ReapRow where
  id : GoStr
  pubDate : Int
deriving DecidableEq

/-- Outcome of the sweep: the final `log.Printf` counts, or `log.Fatal`
(process exit). -/
inductive ReapResult where
  | done : Nat → Nat → ReapResult
  | fatal : ReapResult
deriving DecidableEq

/-- Whether an `esClient.Delete` outcome avoids every `log.Fatal` branch
(main.go lines 325-337): the call must return a response that is not an
error response. -/
def esDeleteOk : ESCall → Bool
  | .transportErr _ => false
  | .resp r => !r.isError

/-- The scan loop of `cleanOutdated`, with the two counters; events are
the sink calls attempted.  A failed store delete, a failed
`esClient.Delete` call, and an error response from it are all
`log.Fatal`. -/
def cleanOutdatedLoop (s : Sinks) (now : Int) :
    List ReapRow → Nat → Nat → ReapResult × List Event
  | [], scanned, deleted => (.done scanned deleted, [])
  | r :: rest, scanned, deleted =>
    if outdated now r.pubDate then
      match s.dbDelete r.id with
      | some _ => (.fatal, [Event.dbDeleteArticle r.id])
      | none =>
        match s.esDelete r.id with
        | .transportErr _ =>
          (.fatal, [Event.dbDeleteArticle r.id, Event.esDeleteArticle r.id])
        | .resp resp =>
          if resp.isError then
            (.fatal, [Event.dbDeleteArticle r.id, Event.esDeleteArticle r.id])
          else
            let t := cleanOutdatedLoop s now rest (scanned + 1) (deleted + 1)
            (t.1, Event.dbDeleteArticle r.id :: Event.esDeleteArticle r.id :: t.2)
    else
      cleanOutdatedLoop s now rest (scanned + 1) deleted

/-- `cleanOutdated`: scan every row, delete the outdated ones from both
sinks, report `{scanned, deleted}`. -/
def cleanOutdated (s : Sinks) (now : Int) (rows : List ReapRow) :
    ReapResult × List Event :=
  cleanOutdatedLoop s now rows 0 0

/-! ## Classifiers used by the claim statements -/

/-- Whether an event is a write of an Article to either sink. -/
def isArticleWrite : Event → Bool
  | .dbArticle _ _ _ _ _ _ => true
  | .esArticleUpdate _ _ => true
  | .esArticleCreate _ _ => true
  | _ => false

/-- The payload of an index write event, if the event is one. -/
def esPayloadOf : Event → Option ESPayload
  | .esSiteUpdate _ p => some p
  | .esSiteCreate _ p => some p
  | .esArticleUpdate _ p => some p
  | .esArticleCreate _ p => some p
  | _ => none

/-- The events `pushArticles` can emit for the item `a` of the feed
owned by `siteId`: the store row and the two possible index calls, all
derived from the item alone. -/
def articleEventOf (siteId : GoStr) (a : RssItem) (e : Event) : Prop :=
  e = Event.dbArticle (deterministic a.link) (sanitize a.title) (sanitize a.link)
        (sanitize a.description) (sanitize a.pubDate) siteId
  ∨ e = Event.esArticleUpdate (deterministic a.link)
        ⟨sanitize a.title, sanitize a.description⟩
  ∨ e = Event.esArticleCreate (deterministic a.link)
        ⟨sanitize a.title, sanitize a.description⟩

/-- The events `pushSite` can emit for the feed at `url` with channel
`ch`: the store row (url raw, the rest sanitized) and the two possible
index calls. -/
def siteEventOf (url : GoStr) (ch : RssChannelData) (e : Event) : Prop :=
  e = Event.dbSite (deterministic url) url (sanitize ch.title) (sanitize ch.link)
        (sanitize ch.description)
  ∨ e = Event.esSiteUpdate (deterministic url) ⟨sanitize ch.title, sanitize ch.description⟩
  ∨ e = Event.esSiteCreate (deterministic url) ⟨sanitize ch.title, sanitize ch.description⟩

/-! ## Shape lemmas on the traces -/

theorem pushArticleToES_events (s : Sinks) (i t d : GoStr) :
    ∀ e ∈ (pushArticleToES s i t d).2,
      e = Event.esArticleUpdate i ⟨t, d⟩ ∨ e = Event.esArticleCreate i ⟨t, d⟩ := by
  intro e he
  simp only [pushArticleToES] at he
  repeat' split at he
  all_goals simp_all

theorem pushSiteToES_events (s : Sinks) (i t d : GoStr) :
    ∀ e ∈ (pushSiteToES s i t d).2,
      e = Event.esSiteUpdate i ⟨t, d⟩ ∨ e = Event.esSiteCreate i ⟨t, d⟩ := by
  intro e he
  simp only [pushSiteToES] at he
  repeat' split at he
  all_goals simp_all

theorem pushArticles_events (s : Sinks) (sid : GoStr) :
    ∀ items : List RssItem, ∀ e ∈ (pushArticles s sid items).2,
      ∃ a ∈ items, articleEventOf sid a e := by
  intro items
  induction items with
  | nil => intro e he; simp [pushArticles] at he
  | cons a rest ih =>
    intro e he
    simp only [pushArticles] at he
    split at he
    · simp at he
    · split at he
      · simp only [List.mem_singleton] at he
        exact ⟨a, List.mem_cons_self a rest, Or.inl he⟩
      · split at he
        · rcases List.mem_cons.mp he with h | h
          · exact ⟨a, List.mem_cons_self a rest, Or.inl h⟩
          · rcases pushArticleToES_events s _ _ _ e h with h' | h' <;>
              exact ⟨a, List.mem_cons_self a rest, by simp [articleEventOf, h']⟩
        · rcases List.mem_cons.mp he with h | h
          · exact ⟨a, List.mem_cons_self a rest, Or.inl h⟩
          · rcases pushArticleToES_events s _ _ _ e h with h' | h' <;>
              exact ⟨a, List.mem_cons_self a rest, by simp [articleEventOf, h']⟩
        · rcases List.mem_cons.mp he with h | h
          · exact ⟨a, List.mem_cons_self a rest, Or.inl h⟩
          · rcases List.mem_append.mp h with h2 | h2
            · rcases pushArticleToES_events s _ _ _ e h2 with h' | h' <;>
                exact ⟨a, List.mem_cons_self a rest, by simp [articleEventOf, h']⟩
            · rcases ih e h2 with ⟨b, hb, hbe⟩
              exact ⟨b, List.mem_cons_of_mem a hb, hbe⟩

theorem pushSite_events (s : Sinks) (url : GoStr) (data : Rss) :
    ∀ e ∈ (pushSite s url data).2, siteEventOf url data.channel e := by
  intro e he
  simp only [pushSite] at he
  split at he
  · simp at he
  · split at he
    · simp only [List.mem_singleton] at he
      exact Or.inl he
    · split at he
      all_goals
        rcases List.mem_cons.mp he with h | h
        · exact Or.inl h
        · rcases pushSiteToES_events s _ _ _ e h with h' | h' <;>
            simp [siteEventOf, h']

theorem pushArticles_invalid_halts (s : Sinks) (sid : GoStr) (a : RssItem)
    (hbad : a.title = [] ∨ a.link = [] ∨ a.description = []) :
    ∀ pre post : List RssItem,
      pushArticles s sid (pre ++ a :: post) = pushArticles s sid pre := by
  intro pre
  induction pre with
  | nil =>
    intro post
    simp only [List.nil_append, pushArticles]
    rw [if_pos hbad]
  | cons x pre ih =>
    intro post
    simp only [List.cons_append, pushArticles]
    split
    · rfl
    · split
      · rfl
      · split
        · rfl
        · rfl
        · have ih' : pushArticles s sid (pre.append (a :: post)) = pushArticles s sid pre :=
            ih post
          rw [ih']

theorem pushSite_ok_shape (s : Sinks) (url : GoStr) (data : Rss) (x : GoStr)
    (h : (pushSite s url data).1 = .ret (x, none)) :
    x = deterministic url ∧
    (pushSite s url data).2
      = Event.dbSite (deterministic url) url (sanitize data.channel.title)
          (sanitize data.channel.link) (sanitize data.channel.description)
        :: (pushSiteToES s (deterministic url) (sanitize data.channel.title)
            (sanitize data.channel.description)).2 := by
  by_cases hv : data.channel.title = [] ∨ data.channel.link = []
  · simp [pushSite, hv] at h
  · rcases hdb : s.dbSite (deterministic url) with _ | e
    · cases hes : (pushSiteToES s (deterministic url) (sanitize data.channel.title)
          (sanitize data.channel.description)).1 with
      | ret r =>
        simp only [pushSite, hv, if_false, hdb, hes] at h ⊢
        simp at h
        exact ⟨h.1.symm, by simp⟩
      | panicked => simp [pushSite, hv, hdb, hes] at h
    · simp [pushSite, hv, hdb] at h

theorem siteEventOf_not_article (url : GoStr) (ch : RssChannelData) (e : Event)
    (h : siteEventOf url ch e) : isArticleWrite e = false := by
  rcases h with h | h | h <;> subst h <;> rfl

theorem feedTask_events (s : Sinks) (url : GoStr) (data : Rss) :
    ∀ e ∈ (feedTask s url data).2,
      siteEventOf url data.channel e
      ∨ ∃ a ∈ data.channel.items, articleEventOf (deterministic url) a e := by
  intro e he
  simp only [feedTask] at he
  split at he
  · exact Or.inl (pushSite_events s url data e he)
  · exact Or.inl (pushSite_events s url data e he)
  · next sid heq =>
    rcases List.mem_append.mp he with h | h
    · exact Or.inl (pushSite_events s url data e h)
    · rcases pushArticles_events s sid _ e h with ⟨a, ha, hae⟩
      have hsid := (pushSite_ok_shape s url data sid heq).1
      exact Or.inr ⟨a, ha, hsid ▸ hae⟩

theorem cleanLoop_events (s : Sinks) (now : Int) :
    ∀ (rows : List ReapRow) (sc dc : Nat),
      (∀ r ∈ rows, outdated now r.pubDate = true →
        s.dbDelete r.id = none ∧ esDeleteOk (s.esDelete r.id) = true) →
      (cleanOutdatedLoop s now rows sc dc).2
        = (rows.filter fun r => outdated now r.pubDate).flatMap
            (fun r => [Event.dbDeleteArticle r.id, Event.esDeleteArticle r.id]) := by
  intro rows
  induction rows with
  | nil => intro sc dc _; rfl
  | cons r rest ih =>
    intro sc dc h
    have hrest : ∀ x ∈ rest, outdated now x.pubDate = true →
        s.dbDelete x.id = none ∧ esDeleteOk (s.esDelete x.id) = true :=
      fun x hx => h x (List.mem_cons_of_mem r hx)
    by_cases ho : outdated now r.pubDate
    · obtain ⟨hdb, hes⟩ := h r (List.mem_cons_self r rest) ho
      rcases hesc : s.esDelete r.id with e | resp
      · rw [hesc] at hes; simp [esDeleteOk] at hes
      · rw [hesc] at hes
        simp only [esDeleteOk, Bool.not_eq_true'] at hes
        simp [cleanOutdatedLoop, ho, hdb, hesc, hes, ih (sc + 1) (dc + 1) hrest]
    · simp [cleanOutdatedLoop, ho, ih (sc + 1) dc hrest]

theorem cleanLoop_done (s : Sinks) (now : Int) :
    ∀ (rows : List ReapRow) (sc dc : Nat),
      (∀ r ∈ rows, outdated now r.pubDate = true →
        s.dbDelete r.id = none ∧ esDeleteOk (s.esDelete r.id) = true) →
      (cleanOutdatedLoop s now rows sc dc).1
        = .done (sc + rows.length)
            (dc + (rows.filter fun r => outdated now r.pubDate).length) := by
  intro rows
  induction rows with
  | nil => intro sc dc _; simp [cleanOutdatedLoop]
  | cons r rest ih =>
    intro sc dc h
    have hrest : ∀ x ∈ rest, outdated now x.pubDate = true →
        s.dbDelete x.id = none ∧ esDeleteOk (s.esDelete x.id) = true :=
      fun x hx => h x (List.mem_cons_of_mem r hx)
    by_cases ho : outdated now r.pubDate
    · obtain ⟨hdb, hes⟩ := h r (List.mem_cons_self r rest) ho
      rcases hesc : s.esDelete r.id with e | resp
      · rw [hesc] at hes; simp [esDeleteOk] at hes
      · rw [hesc] at hes
        simp only [esDeleteOk, Bool.not_eq_true'] at hes
        have hloop : (cleanOutdatedLoop s now (r :: rest) sc dc).1
            = (cleanOutdatedLoop s now rest (sc + 1) (dc + 1)).1 := by
          simp [cleanOutdatedLoop, ho, hdb, hesc, hes]
        have hf : List.filter (fun x => outdated now x.pubDate) (r :: rest)
            = r :: List.filter (fun x => outdated now x.pubDate) rest := by
          simp [List.filter_cons, ho]
        rw [hloop, ih (sc + 1) (dc + 1) hrest, hf]
        simp only [List.length_cons, ReapResult.done.injEq]
        omega
    · have hloop : (cleanOutdatedLoop s now (r :: rest) sc dc).1
          = (cleanOutdatedLoop s now rest (sc + 1) dc).1 := by
        simp [cleanOutdatedLoop, ho]
      have hf : List.filter (fun x => outdated now x.pubDate) (r :: rest)
          = List.filter (fun x => outdated now x.pubDate) rest := by
        simp [List.filter_cons, ho]
      rw [hloop, ih (sc + 1) dc hrest, hf]
      simp only [List.length_cons, ReapResult.done.injEq]
      exact ⟨by omega, trivial⟩

theorem cleanLoop_fatal (s : Sinks) (now : Int) (r : ReapRow)
    (ho : outdated now r.pubDate = true)
    (hbad : s.dbDelete r.id ≠ none ∨ esDeleteOk (s.esDelete r.id) = false) :
    ∀ (pre post : List ReapRow) (sc dc : Nat),
      cleanOutdatedLoop s now (pre ++ r :: post) sc dc
        = cleanOutdatedLoop s now (pre ++ [r]) sc dc
      ∧ (cleanOutdatedLoop s now (pre ++ [r]) sc dc).1 = .fatal := by
  intro pre
  induction pre with
  | nil =>
    intro post sc dc
    simp only [List.nil_append]
    rcases hdb : s.dbDelete r.id with _ | e
    · rcases hbad with h | h
      · exact absurd hdb h
      · rcases hesc : s.esDelete r.id with e | resp
        · constructor <;> simp [cleanOutdatedLoop, ho, hdb, hesc]
        · have hr : resp.isError = true := by
            rw [hesc] at h
            simpa [esDeleteOk] using h
          constructor <;> simp [cleanOutdatedLoop, ho, hdb, hesc, hr]
    · constructor <;> simp [cleanOutdatedLoop, ho, hdb]
  | cons x pre ih =>
    intro post sc dc
    simp only [List.cons_append]
    by_cases hox : outdated now x.pubDate
    · rcases hxdb : s.dbDelete x.id with _ | e
      · rcases hxes : s.esDelete x.id with e | resp
        · constructor <;> simp [cleanOutdatedLoop, hox, hxdb, hxes]
        · by_cases hxr : resp.isError
          · constructor <;> simp [cleanOutdatedLoop, hox, hxdb, hxes, hxr]
          · have h1 := (ih post (sc + 1) (dc + 1)).1
            have h2 := (ih post (sc + 1) (dc + 1)).2
            constructor <;>
              simp [cleanOutdatedLoop, hox, hxdb, hxes, hxr, h1, h2]
      · constructor <;> simp [cleanOutdatedLoop, hox, hxdb]
    · have h1 := (ih post (sc + 1) dc).1
      have h2 := (ih post (sc + 1) dc).2
      constructor <;> simp [cleanOutdatedLoop, hox, h1, h2]

/-! ## Concrete fixtures for counterexamples and witnesses -/

/-- A successful elasticsearch response. -/
def okResp : ESResp := ⟨200, true, []⟩

/-- An elasticsearch error response other than not-found. -/
def resp500 : ESResp := ⟨500, true, []⟩

/-- Oracles on which every sink call succeeds. -/
def allOk : Sinks :=
  { dbSite := fun _ => none
    esSiteUpdate := fun _ => .resp okResp
    esSiteCreate := fun _ => .resp okResp
    dbArticle := fun _ => none
    esArticleUpdate := fun _ => .resp okResp
    esArticleCreate := fun _ => .resp okResp
    dbDelete := fun _ => none
    esDelete := fun _ => .resp okResp }

/-- Oracles on which every index update call answers a 500 error response. -/
def sinksUpd500 : Sinks :=
  { allOk with
    esSiteUpdate := fun _ => .resp resp500
    esArticleUpdate := fun _ => .resp resp500 }

/-- Oracles on which every index update call fails at transport level. -/
def sinksTransport : Sinks :=
  { allOk with
    esSiteUpdate := fun _ => .transportErr []
    esArticleUpdate := fun _ => .transportErr [] }

/-- Oracles on which the site store write fails. -/
def sinksSiteDbFail : Sinks := { allOk with dbSite := fun _ => some [] }

/-- Oracles on which the reaper's store delete fails. -/
def sinksDelFail : Sinks := { allOk with dbDelete := fun _ => some [] }

/-- A valid feed item. -/
def v1 : RssItem := ⟨[72], [73], [74], [75]⟩

/-- An item with an empty description. -/
def badItem : RssItem := ⟨[76], [77], [], [78]⟩

/-- Another valid feed item. -/
def v3 : RssItem := ⟨[79], [80], [81], [82]⟩

/-- An item whose link contains a quote byte. -/
def itemQ : RssItem := ⟨[65], [quoteByte], [66], []⟩

/-- A valid feed document with one valid item. -/
def dataOne : Rss := ⟨⟨[84], [85], [86], [v1]⟩⟩

/-- A valid feed document with no items. -/
def dataQ : Rss := ⟨⟨[84], [85], [86], []⟩⟩

/-! ## The claims -/

/-- Claim C2: encountering an item with empty title, link, or description
halts processing of all remaining items of that feed: the run over
`pre ++ invalid :: post` equals the run over `pre` alone, whatever the
sink outcomes. -/
theorem c2_fail_fast (s : Sinks) (sid : GoStr) (a : RssItem)
    (hbad : a.title = [] ∨ a.link = [] ∨ a.description = [])
    (pre post : List RssItem) :
    pushArticles s sid (pre ++ a :: post) = pushArticles s sid pre :=
  pushArticles_invalid_halts s sid a hbad pre post

/-- Witness for C2: on `[valid, invalid(empty description), valid]` with
all sinks succeeding, the run equals the run on `[valid]`, whose trace
is exactly the first item's store and index writes. -/
theorem c2_fail_fast_witness :
    (badItem.title = [] ∨ badItem.link = [] ∨ badItem.description = []) ∧
    pushArticles allOk [83] [v1, badItem, v3] = pushArticles allOk [83] [v1] ∧
    (pushArticles allOk [83] [v1]).2
      = [Event.dbArticle (deterministic [73]) (sanitize [72]) (sanitize [73])
          (sanitize [74]) (sanitize [75]) [83],
         Event.esArticleUpdate (deterministic [73]) ⟨sanitize [72], sanitize [74]⟩] :=
  ⟨by decide, c2_fail_fast allOk [83] badItem (by decide) [v1] [v3], by decide⟩

/-- Claim C8: the identity derivation is pure and deterministic, and
distinct inputs always yield distinct ids. -/
theorem c8_id_injective :
    (∀ x : GoStr, deterministic x = deterministic x) ∧
    (∀ x y : GoStr, x ≠ y → deterministic x ≠ deterministic y) :=
  ⟨fun _ => rfl, fun _ _ hne he => hne (deterministic_injective he)⟩

/-- Witness for C8 at two concrete inputs. -/
theorem c8_id_injective_witness :
    deterministic [65] = deterministic [65] ∧ deterministic [65] ≠ deterministic [66] :=
  ⟨c8_id_injective.1 [65], c8_id_injective.2 [65] [66] (by decide)⟩

/-- Claim C10: a transport-level failure of the index update call (nil
response) makes both index writers panic — the deferred body close
dereferences the nil response before the error is checked — instead of
returning the error. -/
theorem c10_nil_response_panic (s : Sinks) (i t d : GoStr) :
    (∀ e, s.esArticleUpdate i = .transportErr e →
      (pushArticleToES s i t d).1 = .panicked) ∧
    (∀ e, s.esSiteUpdate i = .transportErr e →
      (pushSiteToES s i t d).1 = .panicked) := by
  constructor <;> intro e h
  · simp [pushArticleToES, h]
  · simp [pushSiteToES, h]

/-- Witness for C10 on oracles whose update calls fail at transport level. -/
theorem c10_nil_response_panic_witness :
    (pushArticleToES sinksTransport [] [] []).1 = .panicked ∧
    (pushSiteToES sinksTransport [] [] []).1 = .panicked :=
  ⟨(c10_nil_response_panic sinksTransport [] [] []).1 [] rfl,
   (c10_nil_response_panic sinksTransport [] [] []).2 [] rfl⟩

/-- Claim C1 counterexample: the update call answers a 500 error response
— an index error other than not-found — yet the writer returns nil,
not an error. -/
theorem c1_counterexample :
    resp500.isError = true ∧ resp500.statusCode ≠ 404 ∧
    (pushArticleToES sinksUpd500 [] [] []).1 = .ret none ∧
    (pushSiteToES sinksUpd500 [] [] []).1 = .ret none := by
  decide

/-- Claim C1 amended: both index writers attempt the merge-update first;
a 404 triggers the fallback create with the same `{title, description}`
payload; a failed fallback create whose error body is readable is
returned as the write's error; but a non-404 error response from the
update is silently ignored (nil error), as is a failed create with an
unreadable body, and an update success returns nil with no create. -/
theorem c1_merge_or_create (s : Sinks) (i t d : GoStr) :
    ((pushArticleToES s i t d).2.head? = some (Event.esArticleUpdate i ⟨t, d⟩)) ∧
    (∀ r, s.esArticleUpdate i = .resp r → r.isError = true → r.statusCode = 404 →
      (pushArticleToES s i t d).2
        = [Event.esArticleUpdate i ⟨t, d⟩, Event.esArticleCreate i ⟨t, d⟩]) ∧
    (∀ r cr, s.esArticleUpdate i = .resp r → r.isError = true → r.statusCode = 404 →
      s.esArticleCreate i = .resp cr → cr.isError = true → cr.bodyOk = true →
      (pushArticleToES s i t d).1 = .ret (some (.es cr.statusCode cr.body))) ∧
    (∀ r, s.esArticleUpdate i = .resp r → r.isError = true → r.statusCode ≠ 404 →
      pushArticleToES s i t d = (.ret none, [Event.esArticleUpdate i ⟨t, d⟩])) ∧
    (∀ r, s.esArticleUpdate i = .resp r → r.isError = false →
      pushArticleToES s i t d = (.ret none, [Event.esArticleUpdate i ⟨t, d⟩])) ∧
    ((pushSiteToES s i t d).2.head? = some (Event.esSiteUpdate i ⟨t, d⟩)) ∧
    (∀ r, s.esSiteUpdate i = .resp r → r.isError = true → r.statusCode = 404 →
      (pushSiteToES s i t d).2
        = [Event.esSiteUpdate i ⟨t, d⟩, Event.esSiteCreate i ⟨t, d⟩]) ∧
    (∀ r cr, s.esSiteUpdate i = .resp r → r.isError = true → r.statusCode = 404 →
      s.esSiteCreate i = .resp cr → cr.isError = true → cr.bodyOk = true →
      (pushSiteToES s i t d).1 = .ret (some (.es cr.statusCode cr.body))) ∧
    (∀ r, s.esSiteUpdate i = .resp r → r.isError = true → r.statusCode ≠ 404 →
      pushSiteToES s i t d = (.ret none, [Event.esSiteUpdate i ⟨t, d⟩])) ∧
    (∀ r, s.esSiteUpdate i = .resp r → r.isError = false →
      pushSiteToES s i t d = (.ret none, [Event.esSiteUpdate i ⟨t, d⟩])) := by
  refine ⟨?_, ?_, ?_, ?_, ?_, ?_, ?_, ?_, ?_, ?_⟩
  · rcases h : s.esArticleUpdate i with e | r
    · simp [pushArticleToES, h]
    · simp only [pushArticleToES, h]
      repeat' split
      all_goals simp
  · intro r h h1 h2
    rcases hc : s.esArticleCreate i with e | cr
    · simp [pushArticleToES, h, h1, h2, hc]
    · simp only [pushArticleToES, h, h1, h2, hc, if_true]
      split_ifs <;> simp
  · intro r cr h h1 h2 hc hcr hbody
    simp [pushArticleToES, h, h1, h2, hc, hcr, hbody]
  · intro r h h1 h2
    simp [pushArticleToES, h, h1, h2]
  · intro r h h1
    simp [pushArticleToES, h, h1]
  · rcases h : s.esSiteUpdate i with e | r
    · simp [pushSiteToES, h]
    · simp only [pushSiteToES, h]
      repeat' split
      all_goals simp
  · intro r h h1 h2
    rcases hc : s.esSiteCreate i with e | cr
    · simp [pushSiteToES, h, h1, h2, hc]
    · simp only [pushSiteToES, h, h1, h2, hc, if_true]
      split_ifs <;> simp
  · intro r cr h h1 h2 hc hcr hbody
    simp [pushSiteToES, h, h1, h2, hc, hcr, hbody]
  · intro r h h1 h2
    simp [pushSiteToES, h, h1, h2]
  · intro r h h1
    simp [pushSiteToES, h, h1]

/-- Witness for C1 amended: the ignored-non-404-error case at concrete
oracles. -/
theorem c1_merge_or_create_witness :
    pushArticleToES sinksUpd500 [] [] []
      = (.ret none, [Event.esArticleUpdate [] ⟨[], []⟩]) ∧
    pushSiteToES sinksUpd500 [] [] []
      = (.ret none, [Event.esSiteUpdate [] ⟨[], []⟩]) :=
  ⟨(c1_merge_or_create sinksUpd500 [] [] []).2.2.2.1 resp500 rfl (by decide) (by decide),
   (c1_merge_or_create sinksUpd500 [] [] []).2.2.2.2.2.2.2.2.1 resp500 rfl (by decide)
     (by decide)⟩

/-- Claim C3: the reaper evicts exactly the articles whose age strictly
exceeds the retention window — age `window - eps` is retained, age
`window + eps` is deleted — and on a sweep whose deletions all succeed
the trace deletes each outdated row from the store and then from the
index, and nothing else. -/
theorem c3_retention_boundary :
    (∀ now pd eps : Int, 0 < eps → now - pd = articleThreshold - eps →
      outdated now pd = false) ∧
    (∀ now pd eps : Int, 0 < eps → now - pd = articleThreshold + eps →
      outdated now pd = true) ∧
    (∀ (s : Sinks) (now : Int) (rows : List ReapRow),
      (∀ r ∈ rows, outdated now r.pubDate = true →
        s.dbDelete r.id = none ∧ esDeleteOk (s.esDelete r.id) = true) →
      (cleanOutdated s now rows).2
        = (rows.filter fun r => outdated now r.pubDate).flatMap
            (fun r => [Event.dbDeleteArticle r.id, Event.esDeleteArticle r.id])) := by
  refine ⟨?_, ?_, fun s now rows h => cleanLoop_events s now rows 0 0 h⟩
  · intro now pd eps heps h
    simp only [outdated, goSub, decide_eq_false_iff_not, not_lt, articleThreshold] at *
    rcases le_total (now - pd) (2 ^ 63 - 1) with h1 | h1 <;>
      rcases le_total (-(2 ^ 63)) (now - pd) with h2 | h2 <;>
      simp [min_def, max_def, h1, h2] <;> omega
  · intro now pd eps heps h
    simp only [outdated, goSub, decide_eq_true_eq, articleThreshold] at *
    rcases le_total (now - pd) (2 ^ 63 - 1) with h1 | h1 <;>
      rcases le_total (-(2 ^ 63)) (now - pd) with h2 | h2 <;>
      simp [min_def, max_def, h1, h2] <;> omega

/-- Witness for C3 at the concrete boundary and a concrete sweep with
one outdated and one fresh row. -/
theorem c3_retention_boundary_witness :
    outdated (articleThreshold - 1) 0 = false ∧
    outdated (articleThreshold + 1) 0 = true ∧
    (cleanOutdated allOk (articleThreshold + 1)
        [⟨[65], 0⟩, ⟨[66], 1⟩]).2
      = [Event.dbDeleteArticle [65], Event.esDeleteArticle [65]] :=
  ⟨c3_retention_boundary.1 (articleThreshold - 1) 0 1 (by decide) (by decide),
   c3_retention_boundary.2.1 (articleThreshold + 1) 0 1 (by decide) (by decide),
   by
    rw [c3_retention_boundary.2.2 allOk (articleThreshold + 1)
      [⟨[65], 0⟩, ⟨[66], 1⟩] (by decide)]
    decide⟩

/-- Claim C9: a failure of either deletion step is process-fatal — the
sweep stops at the failing row, independently of the remaining rows —
and a fully successful sweep reports the scanned and deleted counts. -/
theorem c9_reaper_fatality :
    (∀ (s : Sinks) (now : Int) (rows : List ReapRow),
      (∀ r ∈ rows, outdated now r.pubDate = true →
        s.dbDelete r.id = none ∧ esDeleteOk (s.esDelete r.id) = true) →
      (cleanOutdated s now rows).1
        = .done rows.length (rows.filter fun r => outdated now r.pubDate).length) ∧
    (∀ (s : Sinks) (now : Int) (r : ReapRow) (pre post : List ReapRow),
      outdated now r.pubDate = true →
      (s.dbDelete r.id ≠ none ∨ esDeleteOk (s.esDelete r.id) = false) →
      cleanOutdated s now (pre ++ r :: post) = cleanOutdated s now (pre ++ [r]) ∧
      (cleanOutdated s now (pre ++ r :: post)).1 = .fatal) := by
  constructor
  · intro s now rows h
    simpa using cleanLoop_done s now rows 0 0 h
  · intro s now r pre post ho hbad
    have h1 := (cleanLoop_fatal s now r ho hbad pre post 0 0).1
    have h2 := (cleanLoop_fatal s now r ho hbad pre post 0 0).2
    exact ⟨h1, by rw [show cleanOutdated s now (pre ++ r :: post)
      = cleanOutdated s now (pre ++ [r]) from h1]; exact h2⟩

/-- Witness for C9: a successful two-row sweep reports `{2, 1}`, and a
failing store delete on the first outdated row is fatal regardless of
the rows after it. -/
theorem c9_reaper_fatality_witness :
    (cleanOutdated allOk (articleThreshold + 1) [⟨[65], 0⟩, ⟨[66], 1⟩]).1
      = .done 2 1 ∧
    (cleanOutdated sinksDelFail (articleThreshold + 1)
        ([] ++ (⟨[65], 0⟩ : ReapRow) :: [⟨[66], 0⟩])).1 = .fatal := by
  constructor
  · rw [c9_reaper_fatality.1 allOk (articleThreshold + 1)
      [⟨[65], 0⟩, ⟨[66], 1⟩] (by decide)]
    decide
  · exact (c9_reaper_fatality.2 sinksDelFail (articleThreshold + 1) ⟨[65], 0⟩ []
      [⟨[66], 0⟩] (by decide) (Or.inl (by decide))).2

/-- Claim C4 counterexample: an index error on the site write — a 500
error response to the site index update — does not abort the feed's
articles: the article store write still occurs in the trace. -/
theorem c4_counterexample :
    sinksUpd500.esSiteUpdate (deterministic [65]) = .resp resp500 ∧
    resp500.isError = true ∧
    Event.dbArticle (deterministic [73]) (sanitize [72]) (sanitize [73]) (sanitize [74])
        (sanitize [75]) (deterministic [65])
      ∈ (feedTask sinksUpd500 [65] dataOne).2 := by
  decide

/-- Claim C4 amended: the site store write is the first event of any feed
task that writes articles, so the Site row write precedes every article
write; and when `pushSite` returns an error (store error, channel
validation error, or a surfaced index error) no article write occurs —
an index error that the writer swallows does not abort the articles. -/
theorem c4_site_before_articles (s : Sinks) (url : GoStr) (data : Rss) :
    (∀ x e₀, (pushSite s url data).1 = .ret (x, some e₀) →
      ∀ e ∈ (feedTask s url data).2, isArticleWrite e = false) ∧
    (∀ e ∈ (feedTask s url data).2, isArticleWrite e = true →
      (feedTask s url data).2.head?
        = some (Event.dbSite (deterministic url) url (sanitize data.channel.title)
            (sanitize data.channel.link) (sanitize data.channel.description))) := by
  constructor
  · intro x e₀ h e he
    have he2 : e ∈ (pushSite s url data).2 := by
      simpa only [feedTask, h] using he
    exact siteEventOf_not_article url data.channel e (pushSite_events s url data e he2)
  · intro e he harticle
    rcases hps : (pushSite s url data).1 with v | _
    · rcases v with ⟨x, o⟩
      rcases o with _ | e₀
      · obtain ⟨hx, hevs⟩ := pushSite_ok_shape s url data x hps
        simp only [feedTask, hps, hevs]
        rfl
      · have he2 : e ∈ (pushSite s url data).2 := by
          simpa only [feedTask, hps] using he
        have hno := siteEventOf_not_article url data.channel e
          (pushSite_events s url data e he2)
        rw [harticle] at hno
        exact absurd hno (by simp)
    · have he2 : e ∈ (pushSite s url data).2 := by
        simpa only [feedTask, hps] using he
      have hno := siteEventOf_not_article url data.channel e
        (pushSite_events s url data e he2)
      rw [harticle] at hno
      exact absurd hno (by simp)

/-- Witness for C4: a failing site store write yields a trace with no
article write. -/
theorem c4_site_before_articles_witness :
    isArticleWrite (Event.dbSite (deterministic [65]) [65] (sanitize [84])
      (sanitize [85]) (sanitize [86])) = false :=
  (c4_site_before_articles sinksSiteDbFail [65] dataOne).1 [65] (.db []) (by decide)
    (Event.dbSite (deterministic [65]) [65] (sanitize [84]) (sanitize [85])
      (sanitize [86]))
    (by decide)

/-- Claim C5: the store upsert on an id conflict rewrites only title and
description — the conflicting row survives with its other fields intact
and the table does not grow — and every index payload of a feed task is
exactly a sanitized title/description pair of the channel or of one of
its items. -/
theorem c5_update_frame :
    (∀ (tbl : List SiteRow) (r x : SiteRow), x ∈ tbl → x.id = r.id →
      { x with title := r.title, description := r.description } ∈ upsertSiteRow tbl r
      ∧ (upsertSiteRow tbl r).length = tbl.length) ∧
    (∀ (tbl : List ArticleRow) (r x : ArticleRow), x ∈ tbl → x.id = r.id →
      { x with title := r.title, description := r.description } ∈ upsertArticleRow tbl r
      ∧ (upsertArticleRow tbl r).length = tbl.length) ∧
    (∀ (s : Sinks) (url : GoStr) (data : Rss) (e : Event) (p : ESPayload),
      e ∈ (feedTask s url data).2 → esPayloadOf e = some p →
      p = ⟨sanitize data.channel.title, sanitize data.channel.description⟩
      ∨ ∃ a ∈ data.channel.items, p = ⟨sanitize a.title, sanitize a.description⟩) := by
  refine ⟨?_, ?_, ?_⟩
  · intro tbl r x hx hid
    have hany : tbl.any (fun y => y.id = r.id) = true :=
      List.any_eq_true.mpr ⟨x, hx, by simp [hid]⟩
    unfold upsertSiteRow
    rw [if_pos hany]
    refine ⟨?_, by simp⟩
    have hfx : (fun y => if y.id = r.id then
        { y with title := r.title, description := r.description } else y) x
        = { x with title := r.title, description := r.description } := by
      simp [hid]
    exact hfx ▸ List.mem_map_of_mem _ hx
  · intro tbl r x hx hid
    have hany : tbl.any (fun y => y.id = r.id) = true :=
      List.any_eq_true.mpr ⟨x, hx, by simp [hid]⟩
    unfold upsertArticleRow
    rw [if_pos hany]
    refine ⟨?_, by simp⟩
    have hfx : (fun y => if y.id = r.id then
        { y with title := r.title, description := r.description } else y) x
        = { x with title := r.title, description := r.description } := by
      simp [hid]
    exact hfx ▸ List.mem_map_of_mem _ hx
  · intro s url data e p he hp
    rcases feedTask_events s url data e he with h | ⟨a, ha, h⟩
    · rcases h with h | h | h
      · subst h; simp [esPayloadOf] at hp
      · subst h
        simp only [esPayloadOf, Option.some.injEq] at hp
        exact Or.inl hp.symm
      · subst h
        simp only [esPayloadOf, Option.some.injEq] at hp
        exact Or.inl hp.symm
    · rcases h with h | h | h
      · subst h; simp [esPayloadOf] at hp
      · subst h
        simp only [esPayloadOf, Option.some.injEq] at hp
        exact Or.inr ⟨a, ha, hp.symm⟩
      · subst h
        simp only [esPayloadOf, Option.some.injEq] at hp
        exact Or.inr ⟨a, ha, hp.symm⟩

/-- A stored site row, for the C5 witness. -/
def siteRowA : SiteRow := ⟨[65], [66], [67], [68], [69]⟩

/-- A conflicting site upsert row (same id), for the C5 witness. -/
def siteRowB : SiteRow := ⟨[65], [70], [71], [72], [73]⟩

/-- A stored article row, for the C5 witness. -/
def artRowA : ArticleRow := ⟨[65], [66], [67], [68], [69], [70]⟩

/-- A conflicting article upsert row (same id), for the C5 witness. -/
def artRowB : ArticleRow := ⟨[65], [71], [72], [73], [74], [75]⟩

/-- Witness for C5 at concrete one-row tables and a concrete feed task. -/
theorem c5_update_frame_witness :
    ({ siteRowA with title := siteRowB.title, description := siteRowB.description }
        ∈ upsertSiteRow [siteRowA] siteRowB
      ∧ (upsertSiteRow [siteRowA] siteRowB).length = [siteRowA].length) ∧
    ({ artRowA with title := artRowB.title, description := artRowB.description }
        ∈ upsertArticleRow [artRowA] artRowB
      ∧ (upsertArticleRow [artRowA] artRowB).length = [artRowA].length) ∧
    ((⟨sanitize [84], sanitize [86]⟩ : ESPayload)
        = ⟨sanitize dataOne.channel.title, sanitize dataOne.channel.description⟩
      ∨ ∃ a ∈ dataOne.channel.items,
        (⟨sanitize [84], sanitize [86]⟩ : ESPayload)
          = ⟨sanitize a.title, sanitize a.description⟩) :=
  ⟨c5_update_frame.1 [siteRowA] siteRowB siteRowA (by decide) (by decide),
   c5_update_frame.2.1 [artRowA] artRowB artRowA (by decide) (by decide),
   c5_update_frame.2.2 allOk [65] dataOne
     (Event.esSiteUpdate (deterministic [65]) ⟨sanitize [84], sanitize [86]⟩)
     ⟨sanitize [84], sanitize [86]⟩ (by decide) (by decide)⟩

/-- Claim C6 counterexample: the Site's url is persisted raw: with the
feed url a single quote byte, the store write carries the quote
unchanged, although the sanitizer would map it to a backtick. -/
theorem c6_counterexample :
    (pushSite allOk [quoteByte] dataQ).2
      = [Event.dbSite (deterministic [quoteByte]) [quoteByte] (sanitize [84])
          (sanitize [85]) (sanitize [86]),
         Event.esSiteUpdate (deterministic [quoteByte])
           ⟨sanitize [84], sanitize [86]⟩] ∧
    sanitize [quoteByte] ≠ [quoteByte] := by
  decide

/-- Claim C6 amended: the sanitizer substitutes a backtick for every
quote byte and leaves every other byte; it is applied to the Site's
title, link and description and to all four Article text fields, but
not to the Site's url, which is persisted as given. -/
theorem c6_sanitize_fields :
    (∀ (s : GoStr) (i : Nat),
      (sanitize s)[i]? = s[i]?.map fun b => if b = quoteByte then backtickByte else b) ∧
    (∀ (s : Sinks) (url : GoStr) (data : Rss), ∀ e ∈ (pushSite s url data).2,
      siteEventOf url data.channel e) ∧
    (∀ (s : Sinks) (sid : GoStr) (items : List RssItem),
      ∀ e ∈ (pushArticles s sid items).2, ∃ a ∈ items, articleEventOf sid a e) :=
  ⟨fun s i => by simp [sanitize], pushSite_events, fun s sid => pushArticles_events s sid⟩

/-- Witness for C6 at a concrete string and a concrete site write. -/
theorem c6_sanitize_fields_witness :
    ((sanitize [quoteByte, 65])[0]?
      = (([quoteByte, 65] : GoStr)[0]?).map
          fun b => if b = quoteByte then backtickByte else b) ∧
    siteEventOf [65] dataQ.channel
      (Event.dbSite (deterministic [65]) [65] (sanitize [84]) (sanitize [85])
        (sanitize [86])) :=
  ⟨c6_sanitize_fields.1 [quoteByte, 65] 0,
   c6_sanitize_fields.2.1 allOk [65] dataQ
     (Event.dbSite (deterministic [65]) [65] (sanitize [84]) (sanitize [85])
       (sanitize [86]))
     (by decide)⟩

/-- Claim C7 counterexample: for an item whose link contains a quote, the
persisted id is the encoding of the raw link while the recorded link
field is the sanitized form, so the id is not the encoding of the
natural key as recorded in the entity. -/
theorem c7_counterexample :
    (pushArticles allOk [83] [itemQ]).2.head?
      = some (Event.dbArticle (deterministic [quoteByte]) (sanitize [65])
          [backtickByte] (sanitize [66]) (sanitize []) [83]) ∧
    deterministic [backtickByte] ≠ deterministic [quoteByte] := by
  decide

/-- Claim C7 amended: every persisted Site id is `deterministic` of the
feed url, which is also recorded raw; every persisted Article id is
`deterministic` of the item's link as received, while the recorded link
field is the sanitized form of that link. -/
theorem c7_id_derivation (s : Sinks) (url : GoStr) (data : Rss) :
    (∀ i u t l d, Event.dbSite i u t l d ∈ (pushSite s url data).2 →
      i = deterministic url ∧ u = url) ∧
    (∀ (sid : GoStr) (items : List RssItem) i t l d pd x,
      Event.dbArticle i t l d pd x ∈ (pushArticles s sid items).2 →
      ∃ a ∈ items, i = deterministic a.link ∧ l = sanitize a.link) := by
  constructor
  · intro i u t l d h
    rcases pushSite_events s url data _ h with h' | h' | h'
    · rw [Event.dbSite.injEq] at h'
      exact ⟨h'.1, h'.2.1⟩
    · exact absurd h' (by simp)
    · exact absurd h' (by simp)
  · intro sid items i t l d pd x h
    rcases pushArticles_events s sid items _ h with ⟨a, ha, h' | h' | h'⟩
    · rw [Event.dbArticle.injEq] at h'
      exact ⟨a, ha, h'.1, h'.2.2.1⟩
    · exact absurd h' (by simp)
    · exact absurd h' (by simp)

/-- Witness for C7 at the quote-link item: the id is the encoding of the
raw link and the recorded link is its sanitized form. -/
theorem c7_id_derivation_witness :
    ∃ a ∈ [itemQ], deterministic [quoteByte] = deterministic a.link
      ∧ ([backtickByte] : GoStr) = sanitize a.link :=
  (c7_id_derivation allOk [65] dataOne).2 [83] [itemQ] (deterministic [quoteByte])
    (sanitize [65]) [backtickByte] (sanitize [66]) (sanitize []) [83] (by decide)

end Scraper
